import Mathlib

/-!
Shallow embedding of `src/services/markitdown_api/main.py` (the MarkItDown
HTTP adapter): the `POST /convert` handler `convert_file`, the result
normalizer `_to_markdown_text`, and the `GET /supported-extensions`
introspection `_supported_extensions`.

Python values that can flow out of the external converter are modelled by
the inductive `PyVal`; the converter itself (`converter.convert`) is an
arbitrary function from the staged path to either a result value or a
raised exception's message. Filesystem staging is modelled by explicit
fields of the handler outcome (which suffix was given to the temporary
file, whether `os.unlink` was attempted, whether the file remains when
unlink fails). Pathlib's `Path(...).suffix` (POSIX flavour) is embedded at
the character-list level.
-/

namespace MarkitdownApi

/-- A Python value as observable by `_to_markdown_text`: `None`, a `str`,
a `tuple`/`list` (with its `str()` representation), or any other object,
exposing optional `text` and `markdown` attributes and a `str()`
representation. -/
inductive PyVal where
  | pyNone : PyVal
  | pyStr : String → PyVal
  | pySeq : List PyVal → String → PyVal
  | pyObj : Option PyVal → Option PyVal → String → PyVal

/-- `str(v)`: identity on strings, `"None"` for `None`, and the recorded
representation for sequences and other objects. -/
def pyStrRepr : PyVal → String
  | .pyNone => "None"
  | .pyStr s => s
  | .pySeq _ rep => rep
  | .pyObj _ _ rep => rep

/-- `getattr(v, name, None)`: only non-sequence, non-string objects carry a
`text` or `markdown` attribute; everywhere else the default `None` comes
back. -/
def pyGetattr (v : PyVal) (name : String) : PyVal :=
  match v with
  | .pyObj text markdown _ =>
      if name = "text" then text.getD .pyNone
      else if name = "markdown" then markdown.getD .pyNone
      else .pyNone
  | _ => .pyNone

/-- `_to_markdown_text` from `main.py`: `None` fails, a `str` is returned
as-is, then a string `text` attribute, then a string `markdown` attribute,
then the last element of a non-empty `tuple`/`list` if it is a string,
otherwise `str(converted)`. -/
def _to_markdown_text (converted : PyVal) : Option String :=
  match converted with
  | .pyNone => Option.none
  | .pyStr s => some s
  | _ =>
    match pyGetattr converted "text" with
    | .pyStr text_attr => some text_attr
    | _ =>
      match pyGetattr converted "markdown" with
      | .pyStr markdown_attr => some markdown_attr
      | _ =>
        match converted with
        | .pySeq xs _ =>
            match xs.getLast? with
            | some (.pyStr last) => some last
            | _ => some (pyStrRepr converted)
        | _ => some (pyStrRepr converted)

/-! ### `Path(filename).suffix` (pathlib, POSIX flavour) -/

/-- Split a character list on `'/'` (the groups between slashes, in order;
an empty input gives one empty group). -/
def splitSlash : List Char → List (List Char)
  | [] => [[]]
  | c :: rest =>
      match splitSlash rest with
      | [] => [[]]
      | grp :: grps =>
          if c = '/' then [] :: grp :: grps else (c :: grp) :: grps

/-- The retained path components: pathlib drops empty components (from
duplicate or leading/trailing slashes) and bare `"."` components. -/
def pathComponents (cs : List Char) : List (List Char) :=
  (splitSlash cs).filter (fun comp => comp ≠ [] && comp ≠ ['.'])

/-- `Path(p).name` as characters: the last retained component, or empty. -/
def pathNameChars (cs : List Char) : List Char :=
  (pathComponents cs).getLast?.getD []

/-- The greatest index at which `c` occurs (Python `str.rfind`, with
`none` for "not found"). -/
def lastIdxOf (c : Char) : List Char → Option Nat
  | [] => Option.none
  | x :: xs =>
      match lastIdxOf c xs with
      | some i => some (i + 1)
      | Option.none => if x = c then some 0 else Option.none

/-- `Path(...).suffix` on the name's characters: `name[i:]` for
`i = name.rfind('.')` when `0 < i < len(name) - 1`, else empty. -/
def suffixOfChars (name : List Char) : List Char :=
  match lastIdxOf '.' name with
  | some i => if 0 < i ∧ i < name.length - 1 then name.drop i else []
  | Option.none => []

/-- `Path(p).name` as a string. -/
def pathName (p : String) : String :=
  String.mk (pathNameChars p.data)

/-- `Path(p).suffix` as a string. -/
def pathSuffix (p : String) : String :=
  String.mk (suffixOfChars (pathNameChars p.data))

/-! ### The `POST /convert` handler -/

/-- The outcome of invoking `converter.convert(tmp_path)`: a result value,
or an exception carrying its `str(exc)` message. -/
inductive ConverterCall where
  | ok : PyVal → ConverterCall
  | raised : String → ConverterCall

/-- An HTTP response: status code and body (the `detail` string for the
`HTTPException` error responses, the plain-text payload for 200). -/
structure Response where
  status : Nat
  body : String
deriving DecidableEq

/-- Everything observable about one `POST /convert` request: the response,
which suffix was handed to `tempfile.NamedTemporaryFile` (`none` when no
file was staged), whether the converter was invoked, whether `os.unlink`
was attempted, whether the staged file remains on disk afterwards, and the
server-side log lines printed. -/
structure Outcome where
  response : Response
  stagedSuffix : Option String
  convertCalled : Bool
  unlinkAttempted : Bool
  tmpRemains : Bool
  logged : List String
deriving DecidableEq

/-- `convert_file` from `main.py`. `contents` are the uploaded bytes,
`filename` the optional declared filename, `convert` the external
converter's behaviour on the staged path, `tmpName` the unique temporary
path chosen by the staging mechanism, and `unlinkOk` whether `os.unlink`
succeeds (an `OSError` on failure is swallowed by the bare
`try/except OSError: pass`). -/
def convert_file (filename : Option String) (contents : List Nat)
    (convert : String → ConverterCall) (tmpName : String)
    (unlinkOk : Bool) : Outcome :=
  if contents = [] then
    { response := ⟨400, "Uploaded file is empty."⟩
      stagedSuffix := Option.none
      convertCalled := false
      unlinkAttempted := false
      tmpRemains := false
      logged := [] }
  else
    let suffix := pathSuffix (filename.getD "")
    match convert tmpName with
    | .raised exc =>
        { response := ⟨422, "Conversion failed: " ++ exc⟩
          stagedSuffix := some suffix
          convertCalled := true
          unlinkAttempted := true
          tmpRemains := !unlinkOk
          logged := ["Conversion error: " ++ exc] }
    | .ok converted =>
        match _to_markdown_text converted with
        | Option.none =>
            { response := ⟨500, "Conversion returned an unexpected format."⟩
              stagedSuffix := some suffix
              convertCalled := true
              unlinkAttempted := true
              tmpRemains := !unlinkOk
              logged := [] }
        | some markdown =>
            { response := ⟨200, markdown⟩
              stagedSuffix := some suffix
              convertCalled := true
              unlinkAttempted := true
              tmpRemains := !unlinkOk
              logged := [] }

/-! ### The `GET /supported-extensions` endpoint -/

/-- Python's `needle in haystack` on strings: substring containment. -/
def pyIn (needle haystack : String) : Bool :=
  decide (needle.data <:+: haystack.data)

/-- Python `str.lower()`: lowercase each character (converter class names
are ASCII identifiers; this is `String.toLower` written as a map over the
character list). -/
def pyLower (s : String) : String :=
  String.mk (s.data.map Char.toLower)

/-- Lexicographic comparison of character lists by code point, the order
Python's `sorted` uses on strings: the empty string first, then by first
differing character. -/
def lexLe : List Char → List Char → Bool
  | [], _ => true
  | _ :: _, [] => false
  | a :: as, b :: bs => if a = b then lexLe as bs else decide (a < b)

/-- The string order `sorted` sorts by. -/
def strLe (a b : String) : Prop :=
  lexLe a.data b.data = true

instance : DecidableRel strLe :=
  fun a b => instDecidableEqBool (lexLe a.data b.data) true

/-- One entry of the converter's `_converters` list. `converterName` is
`some n` when the registration has a `.converter` attribute whose type is
named `n` (`type(actual_converter).__name__`), `none` when `hasattr`
fails. -/
structure ConverterRegistration where
  converterName : Option String
deriving DecidableEq

/-- The state of `getattr(converter, "_converters", None)`: the attribute
is missing or `None`, present but not a `list` (with its truthiness), or a
`list` of registrations. -/
inductive ConvertersAttr where
  | absent : ConvertersAttr
  | notAList : Bool → ConvertersAttr
  | listOf : List ConverterRegistration → ConvertersAttr
deriving DecidableEq

/-- The `if`/`elif` chain of `_supported_extensions`, mapping a lowercased
converter class name to the extensions it contributes. -/
def extensionsForName (converter_name : String) : List String :=
  if pyIn "pdf" converter_name then [".pdf"]
  else if pyIn "docx" converter_name then [".docx"]
  else if pyIn "doc" converter_name && !pyIn "docx" converter_name then [".doc"]
  else if pyIn "pptx" converter_name then [".pptx"]
  else if pyIn "ppt" converter_name && !pyIn "pptx" converter_name then [".ppt"]
  else if pyIn "xlsx" converter_name then [".xlsx"]
  else if pyIn "xls" converter_name && !pyIn "xlsx" converter_name then [".xls"]
  else if pyIn "csv" converter_name then [".csv"]
  else if pyIn "html" converter_name then [".html", ".htm"]
  else if pyIn "epub" converter_name then [".epub"]
  else if pyIn "ipynb" converter_name then [".ipynb"]
  else if pyIn "image" converter_name then
    [".png", ".jpg", ".jpeg", ".gif", ".bmp", ".tiff", ".webp"]
  else if pyIn "audio" converter_name then [".mp3", ".wav", ".m4a", ".flac"]
  else if pyIn "msg" converter_name then [".msg"]
  else if pyIn "plaintext" converter_name then [".txt", ".md", ".rst", ".log"]
  else if pyIn "zip" converter_name then [".zip"]
  else if pyIn "rss" converter_name then [".xml", ".rss"]
  else if pyIn "json" converter_name then [".json"]
  else []

/-- The possible contributions of a single registered handler: each of the
18 rules' extension lists, or nothing. -/
def ruleContributions : List (List String) :=
  [[".pdf"], [".docx"], [".doc"], [".pptx"], [".ppt"], [".xlsx"], [".xls"],
   [".csv"], [".html", ".htm"], [".epub"], [".ipynb"],
   [".png", ".jpg", ".jpeg", ".gif", ".bmp", ".tiff", ".webp"],
   [".mp3", ".wav", ".m4a", ".flac"], [".msg"], [".txt", ".md", ".rst", ".log"],
   [".zip"], [".xml", ".rss"], [".json"], []]

/-- The loop body for one registration: skipped when there is no
`.converter` attribute, otherwise dispatch on the lowercased type name. -/
def extensionsForReg (r : ConverterRegistration) : List String :=
  match r.converterName with
  | some n => extensionsForName (pyLower n)
  | Option.none => []

/-- The extensions gathered by the introspection loop. The loop body runs
only when `_converters` is a truthy `list` (so a missing attribute, a
non-list value, or an empty list all contribute nothing). -/
def introspectedExtensions (c : ConvertersAttr) : List String :=
  match c with
  | .listOf regs =>
      if regs = [] then []
      else regs.foldl (fun acc r => acc ++ extensionsForReg r) []
  | _ => []

/-- The six extensions `extensions.update(...)` always adds. -/
def alwaysAdded : List String :=
  [".yaml", ".yml", ".tsv", ".rtf", ".eml", ".tex"]

/-- The 25-entry static fallback set used when the gathered set is empty. -/
def fallbackExtensions : List String :=
  [".pdf", ".doc", ".docx", ".ppt", ".pptx", ".xls", ".xlsx",
   ".txt", ".md", ".html", ".htm", ".csv", ".tsv", ".json",
   ".xml", ".yaml", ".yml", ".ipynb", ".rst", ".tex", ".rtf",
   ".eml", ".msg", ".epub", ".zip"]

/-- The `extensions` set after the loop and the unconditional update: a
set is modelled as a duplicate-free list of its elements. -/
def collectedExtensions (c : ConvertersAttr) : List String :=
  (introspectedExtensions c ++ alwaysAdded).dedup

/-- `_supported_extensions` from `main.py`: the collected set, replaced by
the static fallback if empty, returned as a sorted list. -/
def _supported_extensions (c : ConvertersAttr) : List String :=
  List.insertionSort strLe
    (if collectedExtensions c = [] then fallbackExtensions
     else collectedExtensions c)

/-- The body of the `GET /supported-extensions` route: always a 200
`JSONResponse` whose `"extensions"` key holds the sorted list. -/
structure ExtensionsResponse where
  status : Nat
  extensions : List String
deriving DecidableEq

/-- `supported_extensions` from `main.py`. -/
def supported_extensions (c : ConvertersAttr) : ExtensionsResponse :=
  { status := 200, extensions := _supported_extensions c }

/-! ### Order facts about `lexLe`/`strLe` -/

theorem lexLe_total : ∀ x y : List Char, lexLe x y = true ∨ lexLe y x = true
  | [], _ => Or.inl rfl
  | _ :: _, [] => Or.inr rfl
  | a :: as, b :: bs => by
      by_cases hab : a = b
      · subst hab
        rcases lexLe_total as bs with h | h
        · exact Or.inl (by simp [lexLe, h])
        · exact Or.inr (by simp [lexLe, h])
      · rcases lt_trichotomy a b with h | h | h
        · exact Or.inl (by simp [lexLe, hab, h])
        · exact absurd h hab
        · exact Or.inr (by simp [lexLe, Ne.symm hab, h])

theorem lexLe_trans : ∀ x y z : List Char,
    lexLe x y = true → lexLe y z = true → lexLe x z = true
  | [], _, _, _, _ => rfl
  | a :: as, [], _, h1, _ => by simp [lexLe] at h1
  | a :: as, b :: bs, [], _, h2 => by simp [lexLe] at h2
  | a :: as, b :: bs, c :: cs, h1, h2 => by
      by_cases hab : a = b <;> by_cases hbc : b = c
      · subst hab; subst hbc
        simp only [lexLe, if_pos rfl] at h1 h2 ⊢
        exact lexLe_trans as bs cs h1 h2
      · subst hab
        simp only [lexLe, if_neg hbc] at h2 ⊢
        exact h2
      · subst hbc
        simp only [lexLe, if_neg hab] at h1 ⊢
        exact h1
      · simp only [lexLe, if_neg hab, if_neg hbc, decide_eq_true_eq] at h1 h2
        have hac : a ≠ c := ne_of_lt (lt_trans h1 h2)
        simp only [lexLe, if_neg hac, decide_eq_true_eq]
        exact lt_trans h1 h2

instance : IsTotal String strLe :=
  ⟨fun a b => lexLe_total a.data b.data⟩

instance : IsTrans String strLe :=
  ⟨fun a b c h1 h2 => lexLe_trans a.data b.data c.data h1 h2⟩

theorem lexLe_lex : ∀ x y : List Char,
    lexLe x y = true → List.Lex (· < ·) x y ∨ x = y
  | [], [], _ => Or.inr rfl
  | [], _ :: _, _ => Or.inl List.Lex.nil
  | _ :: _, [], h => by simp [lexLe] at h
  | a :: as, b :: bs, h => by
      by_cases hab : a = b
      · subst hab
        simp only [lexLe, if_pos rfl] at h
        rcases lexLe_lex as bs h with h' | h'
        · exact Or.inl (List.Lex.cons h')
        · exact Or.inr (by rw [h'])
      · simp only [lexLe, if_neg hab, decide_eq_true_eq] at h
        exact Or.inl (List.Lex.rel h)

/-- `strLe` (the comparison `sorted` is modelled with) implies the
standard lexicographic `≤` on `String`. -/
theorem strLe_le {a b : String} (h : strLe a b) : a ≤ b := by
  rcases lexLe_lex a.data b.data h with h' | h'
  · exact le_of_lt (String.lt_iff_toList_lt.mpr h')
  · exact le_of_eq (String.ext_iff.mpr h')

/-! ### Unfolding equations for `_to_markdown_text` and `convert_file` -/

theorem tmt_pyNone : _to_markdown_text .pyNone = Option.none := rfl

theorem tmt_pyStr (s : String) : _to_markdown_text (.pyStr s) = some s := rfl

theorem tmt_pyObj (t m : Option PyVal) (rep : String) :
    _to_markdown_text (.pyObj t m rep) =
      (match t.getD .pyNone with
       | .pyStr text_attr => some text_attr
       | _ =>
         match m.getD .pyNone with
         | .pyStr markdown_attr => some markdown_attr
         | _ => some rep) := rfl

theorem tmt_pySeq (xs : List PyVal) (rep : String) :
    _to_markdown_text (.pySeq xs rep) =
      (match xs.getLast? with
       | some (.pyStr last) => some last
       | _ => some rep) := rfl

theorem convert_file_raised (filename : Option String) (contents : List Nat)
    (convert : String → ConverterCall) (tmpName : String) (unlinkOk : Bool)
    (exc : String) (h : contents ≠ []) (hc : convert tmpName = .raised exc) :
    convert_file filename contents convert tmpName unlinkOk =
      { response := ⟨422, "Conversion failed: " ++ exc⟩
        stagedSuffix := some (pathSuffix (filename.getD ""))
        convertCalled := true
        unlinkAttempted := true
        tmpRemains := !unlinkOk
        logged := ["Conversion error: " ++ exc] } := by
  simp [convert_file, h, hc]

theorem convert_file_ok_none (filename : Option String) (contents : List Nat)
    (convert : String → ConverterCall) (tmpName : String) (unlinkOk : Bool)
    (converted : PyVal) (h : contents ≠ []) (hc : convert tmpName = .ok converted)
    (hm : _to_markdown_text converted = Option.none) :
    convert_file filename contents convert tmpName unlinkOk =
      { response := ⟨500, "Conversion returned an unexpected format."⟩
        stagedSuffix := some (pathSuffix (filename.getD ""))
        convertCalled := true
        unlinkAttempted := true
        tmpRemains := !unlinkOk
        logged := [] } := by
  simp [convert_file, h, hc, hm]

theorem convert_file_ok_some (filename : Option String) (contents : List Nat)
    (convert : String → ConverterCall) (tmpName : String) (unlinkOk : Bool)
    (converted : PyVal) (markdown : String) (h : contents ≠ [])
    (hc : convert tmpName = .ok converted)
    (hm : _to_markdown_text converted = some markdown) :
    convert_file filename contents convert tmpName unlinkOk =
      { response := ⟨200, markdown⟩
        stagedSuffix := some (pathSuffix (filename.getD ""))
        convertCalled := true
        unlinkAttempted := true
        tmpRemains := !unlinkOk
        logged := [] } := by
  simp [convert_file, h, hc, hm]

/-! ### Claims about `POST /convert` -/

/-- C1: for every request with a non-empty payload, the staged file's
deletion is attempted on every exit path of the handler (success,
converter exception, normalization failure) before it returns; when
`os.unlink` succeeds the file is gone, and an `os.unlink` failure is
swallowed: the response does not depend on whether deletion succeeded. -/
theorem c1_staged_file_always_cleaned (filename : Option String)
    (contents : List Nat) (convert : String → ConverterCall) (tmpName : String)
    (unlinkOk : Bool) (h : contents ≠ []) :
    (convert_file filename contents convert tmpName unlinkOk).unlinkAttempted = true
      ∧ (convert_file filename contents convert tmpName true).tmpRemains = false
      ∧ (convert_file filename contents convert tmpName unlinkOk).response
          = (convert_file filename contents convert tmpName true).response := by
  rcases hc : convert tmpName with converted | exc
  · rcases hm : _to_markdown_text converted with _ | markdown
    · rw [convert_file_ok_none filename contents convert tmpName unlinkOk converted h hc hm,
        convert_file_ok_none filename contents convert tmpName true converted h hc hm]
      exact ⟨rfl, rfl, rfl⟩
    · rw [convert_file_ok_some filename contents convert tmpName unlinkOk converted markdown h hc hm,
        convert_file_ok_some filename contents convert tmpName true converted markdown h hc hm]
      exact ⟨rfl, rfl, rfl⟩
  · rw [convert_file_raised filename contents convert tmpName unlinkOk exc h hc,
      convert_file_raised filename contents convert tmpName true exc h hc]
    exact ⟨rfl, rfl, rfl⟩

/-- Witness for C1 at a concrete request (payload `[7]`, converter
succeeding with a string). -/
theorem c1_staged_file_always_cleaned_witness :
    (convert_file Option.none [7] (fun _ => ConverterCall.ok (PyVal.pyStr "ok"))
        "tmpfile" false).unlinkAttempted = true
      ∧ (convert_file Option.none [7] (fun _ => ConverterCall.ok (PyVal.pyStr "ok"))
          "tmpfile" true).tmpRemains = false
      ∧ (convert_file Option.none [7] (fun _ => ConverterCall.ok (PyVal.pyStr "ok"))
          "tmpfile" false).response
        = (convert_file Option.none [7] (fun _ => ConverterCall.ok (PyVal.pyStr "ok"))
            "tmpfile" true).response :=
  c1_staged_file_always_cleaned Option.none [7]
    (fun _ => ConverterCall.ok (PyVal.pyStr "ok")) "tmpfile" false (by decide)

/-- C2: a zero-byte payload always produces HTTP 400 with detail exactly
"Uploaded file is empty.", regardless of the declared filename; no
temporary file is staged and the converter is never invoked. -/
theorem c2_empty_upload_rejected (filename : Option String)
    (convert : String → ConverterCall) (tmpName : String) (unlinkOk : Bool) :
    convert_file filename [] convert tmpName unlinkOk =
      { response := ⟨400, "Uploaded file is empty."⟩
        stagedSuffix := Option.none
        convertCalled := false
        unlinkAttempted := false
        tmpRemains := false
        logged := [] } := rfl

/-- C3: when the converter raises with message `exc` on a non-empty
upload, the handler answers HTTP 422 with detail
"Conversion failed: {exc}", and the server-side log of the request
contains the "Conversion error: {exc}" line (printed before the
`HTTPException` is raised). -/
theorem c3_converter_error_logged_422 (filename : Option String)
    (contents : List Nat) (convert : String → ConverterCall) (tmpName : String)
    (unlinkOk : Bool) (exc : String) (h : contents ≠ [])
    (hc : convert tmpName = .raised exc) :
    (convert_file filename contents convert tmpName unlinkOk).response
        = ⟨422, "Conversion failed: " ++ exc⟩
      ∧ ("Conversion error: " ++ exc)
          ∈ (convert_file filename contents convert tmpName unlinkOk).logged := by
  rw [convert_file_raised filename contents convert tmpName unlinkOk exc h hc]
  exact ⟨rfl, List.mem_singleton.mpr rfl⟩

/-- Witness for C3 at a concrete request whose converter raises
"corrupt stream". -/
theorem c3_converter_error_logged_422_witness :
    (convert_file (some "broken.pdf") [37]
        (fun _ => ConverterCall.raised "corrupt stream") "tmpfile" true).response
        = ⟨422, "Conversion failed: " ++ "corrupt stream"⟩
      ∧ ("Conversion error: " ++ "corrupt stream")
          ∈ (convert_file (some "broken.pdf") [37]
              (fun _ => ConverterCall.raised "corrupt stream") "tmpfile" true).logged :=
  c3_converter_error_logged_422 (some "broken.pdf") [37]
    (fun _ => ConverterCall.raised "corrupt stream") "tmpfile" true
    "corrupt stream" (by decide) rfl

/-- C4: normalization fails exactly on an absent (`None`) result — for
every other result shape `_to_markdown_text` produces a string — and a
`None` result makes the handler answer HTTP 500 with detail
"Conversion returned an unexpected format.". -/
theorem c4_normalization_fails_iff_none (v : PyVal) (filename : Option String)
    (contents : List Nat) (convert : String → ConverterCall) (tmpName : String)
    (unlinkOk : Bool) (h : contents ≠ [])
    (hc : convert tmpName = .ok .pyNone) :
    (_to_markdown_text v = Option.none ↔ v = .pyNone)
      ∧ (convert_file filename contents convert tmpName unlinkOk).response
          = ⟨500, "Conversion returned an unexpected format."⟩ := by
  constructor
  · cases v with
    | pyNone => simp [tmt_pyNone]
    | pyStr s => simp [tmt_pyStr]
    | pySeq xs rep =>
        rw [tmt_pySeq]
        split <;> simp
    | pyObj t m rep =>
        rw [tmt_pyObj]
        split
        · simp
        · split <;> simp
  · rw [convert_file_ok_none filename contents convert tmpName unlinkOk .pyNone h hc tmt_pyNone]

/-- Witness for C4 at a concrete non-null value and a concrete request
whose converter returns `None`. -/
theorem c4_normalization_fails_iff_none_witness :
    (_to_markdown_text (PyVal.pyStr "body") = Option.none
        ↔ PyVal.pyStr "body" = PyVal.pyNone)
      ∧ (convert_file (some "doc.docx") [1]
          (fun _ => ConverterCall.ok PyVal.pyNone) "tmpfile" true).response
          = ⟨500, "Conversion returned an unexpected format."⟩ :=
  c4_normalization_fails_iff_none (PyVal.pyStr "body") (some "doc.docx") [1]
    (fun _ => ConverterCall.ok PyVal.pyNone) "tmpfile" true (by decide) rfl

/-- C10: an empty-string converter result on a non-empty upload is a
valid plain-text value: the handler answers HTTP 200 with an empty body;
the emptiness check applies to the uploaded payload only, never to the
converter's result. -/
theorem c10_empty_result_is_ok (filename : Option String) (contents : List Nat)
    (convert : String → ConverterCall) (tmpName : String) (unlinkOk : Bool)
    (h : contents ≠ []) (hc : convert tmpName = .ok (.pyStr "")) :
    (convert_file filename contents convert tmpName unlinkOk).response = ⟨200, ""⟩
      ∧ _to_markdown_text (.pyStr "") = some "" := by
  rw [convert_file_ok_some filename contents convert tmpName unlinkOk
    (.pyStr "") "" h hc (tmt_pyStr "")]
  exact ⟨rfl, rfl⟩

/-- Witness for C10 at a concrete request whose converter returns the
empty string. -/
theorem c10_empty_result_is_ok_witness :
    (convert_file (some "blank.txt") [9]
        (fun _ => ConverterCall.ok (PyVal.pyStr "")) "tmpfile" true).response
        = ⟨200, ""⟩
      ∧ _to_markdown_text (.pyStr "") = some "" :=
  c10_empty_result_is_ok (some "blank.txt") [9]
    (fun _ => ConverterCall.ok (PyVal.pyStr "")) "tmpfile" true (by decide) rfl

/-- C5: normalization tries its rules in order with first match winning: a
plain string is returned as-is (and a request whose converter yields the
string "# Report\n\nBody" answers 200 with exactly that body); a string
`text` attribute wins over a string `markdown` attribute; a `markdown`
string is used when no string `text` attribute exists; a non-empty
list/tuple contributes its last element exactly when that element is a
string; anything else is stringified. -/
theorem c5_normalization_order :
    (∀ s : String, _to_markdown_text (.pyStr s) = some s)
      ∧ (convert_file (some "report.docx") [82, 101, 112]
          (fun _ => ConverterCall.ok (PyVal.pyStr "# Report\n\nBody"))
          "tmpfile" true).response = ⟨200, "# Report\n\nBody"⟩
      ∧ (∀ t m rep : String,
          _to_markdown_text (.pyObj (some (.pyStr t)) (some (.pyStr m)) rep)
            = some t)
      ∧ (∀ m rep : String,
          _to_markdown_text (.pyObj Option.none (some (.pyStr m)) rep) = some m)
      ∧ (∀ (xs : List PyVal) (s rep : String),
          _to_markdown_text (.pySeq (xs ++ [.pyStr s]) rep) = some s)
      ∧ (∀ (xs : List PyVal) (rep : String),
          _to_markdown_text (.pySeq (xs ++ [.pyNone]) rep) = some rep)
      ∧ (∀ rep : String,
          _to_markdown_text (.pyObj Option.none Option.none rep) = some rep) := by
  refine ⟨fun s => tmt_pyStr s, rfl, fun t m rep => rfl, fun m rep => rfl,
    ?_, ?_, fun rep => rfl⟩
  · intro xs s rep
    rw [tmt_pySeq, List.getLast?_concat]
  · intro xs rep
    rw [tmt_pySeq, List.getLast?_concat]

/-! ### Claims about `GET /supported-extensions` -/

theorem mem_collected_of_always (e : String) (c : ConvertersAttr)
    (he : e ∈ alwaysAdded) : e ∈ collectedExtensions c := by
  unfold collectedExtensions
  rw [List.mem_dedup]
  exact List.mem_append_right _ he

theorem collected_ne_nil (c : ConvertersAttr) : collectedExtensions c ≠ [] :=
  List.ne_nil_of_mem (mem_collected_of_always ".yaml" c (by decide))

theorem supported_unfold (c : ConvertersAttr) :
    _supported_extensions c = List.insertionSort strLe (collectedExtensions c) := by
  unfold _supported_extensions
  rw [if_neg (collected_ne_nil c)]

theorem mem_supported_of_always (e : String) (c : ConvertersAttr)
    (he : e ∈ alwaysAdded) : e ∈ _supported_extensions c := by
  rw [supported_unfold c, List.mem_insertionSort]
  exact mem_collected_of_always e c he

/-- C7: whatever the converter's handler registry looks like, the
discovery endpoint's set contains `.yaml, .yml, .tsv, .rtf, .eml, .tex`;
the set built before the emptiness test is never empty (so the 25-entry
fallback branch is unreachable) and the returned list is never empty. -/
theorem c7_always_added_extensions (c : ConvertersAttr) :
    ".yaml" ∈ _supported_extensions c ∧ ".yml" ∈ _supported_extensions c
      ∧ ".tsv" ∈ _supported_extensions c ∧ ".rtf" ∈ _supported_extensions c
      ∧ ".eml" ∈ _supported_extensions c ∧ ".tex" ∈ _supported_extensions c
      ∧ collectedExtensions c ≠ []
      ∧ _supported_extensions c ≠ [] :=
  ⟨mem_supported_of_always ".yaml" c (by decide),
   mem_supported_of_always ".yml" c (by decide),
   mem_supported_of_always ".tsv" c (by decide),
   mem_supported_of_always ".rtf" c (by decide),
   mem_supported_of_always ".eml" c (by decide),
   mem_supported_of_always ".tex" c (by decide),
   collected_ne_nil c,
   List.ne_nil_of_mem (mem_supported_of_always ".tex" c (by decide))⟩

/-- C8: for every registry state the discovery endpoint succeeds with
status 200 and its extension list is sorted ascending in the
lexicographic string order and free of duplicates. -/
theorem c8_supported_extensions_sorted_nodup (c : ConvertersAttr) :
    (supported_extensions c).status = 200
      ∧ List.Sorted (· ≤ ·) (supported_extensions c).extensions
      ∧ (supported_extensions c).extensions.Nodup := by
  refine ⟨rfl, ?_, ?_⟩
  · show List.Sorted (· ≤ ·) (_supported_extensions c)
    rw [supported_unfold c]
    exact (List.sorted_insertionSort strLe (collectedExtensions c)).imp
      (fun h => strLe_le h)
  · show (_supported_extensions c).Nodup
    rw [supported_unfold c]
    exact ((List.perm_insertionSort strLe (collectedExtensions c)).nodup_iff).mpr
      (List.nodup_dedup _)

/-- C9 counterexample: a single handler whose lowercased name contains
both the "pdf" and "csv" markers contributes only the first matching
rule's extension — `.csv` is absent from the discovery result, refuting
the claim that each matched rule contributes. -/
theorem c9_multiple_markers_counterexample :
    pyIn "pdf" (pyLower "PdfCsvConverter") = true
      ∧ pyIn "csv" (pyLower "PdfCsvConverter") = true
      ∧ ".pdf" ∈ _supported_extensions (.listOf [⟨some "PdfCsvConverter"⟩])
      ∧ ".csv" ∉ _supported_extensions (.listOf [⟨some "PdfCsvConverter"⟩]) := by
  refine ⟨by decide, by decide, ?_, ?_⟩
  · rw [supported_unfold, List.mem_insertionSort]
    decide
  · rw [supported_unfold, List.mem_insertionSort]
    decide

theorem ite_mem_ruleContributions {p : Prop} [Decidable p] {x y : List String}
    (hx : x ∈ ruleContributions) (hy : y ∈ ruleContributions) :
    (if p then x else y) ∈ ruleContributions := by
  split
  · exact hx
  · exact hy

/-- C9 (amended): the `elif` chain means a handler matches at most one
rule: a name containing "pdf" contributes exactly `[".pdf"]` no matter
what other markers it contains, and every handler name's contribution is
one of the 18 rules' extension lists or nothing. -/
theorem c9_first_match_only (nm n : String) (hp : pyIn "pdf" nm = true) :
    extensionsForName nm = [".pdf"]
      ∧ extensionsForName n ∈ ruleContributions := by
  constructor
  · simp [extensionsForName, hp]
  · unfold extensionsForName
    repeat' refine ite_mem_ruleContributions (by decide) ?_
    decide

/-- Witness for the amended C9 at the lowercased name of
`PdfCsvConverter`. -/
theorem c9_first_match_only_witness :
    extensionsForName (pyLower "PdfCsvConverter") = [".pdf"]
      ∧ extensionsForName (pyLower "PdfCsvConverter") ∈ ruleContributions :=
  c9_first_match_only (pyLower "PdfCsvConverter") (pyLower "PdfCsvConverter")
    (by decide)

/-! ### The staged file's suffix (claim C6) -/

theorem splitSlash_no_slash : ∀ cs : List Char, '/' ∉ cs → splitSlash cs = [cs]
  | [], _ => rfl
  | c :: rest, h => by
      have hc : ¬ c = '/' := by
        intro hh
        exact h (hh ▸ List.mem_cons_self c rest)
      have hr : '/' ∉ rest := fun hh => h (List.mem_cons_of_mem c hh)
      unfold splitSlash
      rw [splitSlash_no_slash rest hr]
      simp [hc]

theorem pathNameChars_no_slash (cs : List Char) (h1 : '/' ∉ cs) (h2 : cs ≠ [])
    (h3 : cs ≠ ['.']) : pathNameChars cs = cs := by
  unfold pathNameChars pathComponents
  rw [splitSlash_no_slash cs h1]
  simp [List.filter, h2, h3]

theorem lastIdxOf_not_mem : ∀ (c : Char) (cs : List Char), c ∉ cs →
    lastIdxOf c cs = Option.none
  | _, [], _ => rfl
  | c, x :: xs, h => by
      have hx : ¬ x = c := by
        rintro rfl
        exact h (List.mem_cons_self x xs)
      unfold lastIdxOf
      rw [lastIdxOf_not_mem c xs (fun hh => h (List.mem_cons_of_mem x hh))]
      simp [hx]

theorem lastIdxOf_append_some : ∀ (xs ys : List Char) (c : Char) (j : Nat),
    lastIdxOf c ys = some j → lastIdxOf c (xs ++ ys) = some (xs.length + j)
  | [], ys, c, j, hy => by simpa using hy
  | x :: xs, ys, c, j, hy => by
      have ih := lastIdxOf_append_some xs ys c j hy
      rw [List.cons_append]
      simp only [lastIdxOf]
      rw [ih]
      show some (xs.length + j + 1) = some (xs.length + 1 + j)
      exact congrArg some (by omega)

theorem lastIdxOf_append_none : ∀ (xs ys : List Char) (c : Char),
    lastIdxOf c ys = Option.none → lastIdxOf c (xs ++ ys) = lastIdxOf c xs
  | [], ys, c, hy => by simpa using hy
  | x :: xs, ys, c, hy => by
      have ih := lastIdxOf_append_none xs ys c hy
      rw [List.cons_append]
      simp only [lastIdxOf]
      rw [ih]

theorem suffixOfChars_concat (stemCs extCs : List Char) (hstem : stemCs ≠ [])
    (hext : extCs ≠ []) (hdot : '.' ∉ extCs) :
    suffixOfChars (stemCs ++ '.' :: extCs) = '.' :: extCs := by
  have h1 : lastIdxOf '.' ('.' :: extCs) = some 0 := by
    unfold lastIdxOf
    rw [lastIdxOf_not_mem '.' extCs hdot]
    simp
  have h2 : lastIdxOf '.' (stemCs ++ '.' :: extCs) = some stemCs.length := by
    simpa using lastIdxOf_append_some stemCs ('.' :: extCs) '.' 0 h1
  unfold suffixOfChars
  rw [h2]
  have hcond : 0 < stemCs.length ∧
      stemCs.length < (stemCs ++ '.' :: extCs).length - 1 := by
    have hp1 : 0 < stemCs.length := List.length_pos.mpr hstem
    have hp2 : 0 < extCs.length := List.length_pos.mpr hext
    refine ⟨hp1, ?_⟩
    simp only [List.length_append, List.length_cons]
    omega
  show (if 0 < stemCs.length ∧ stemCs.length < (stemCs ++ '.' :: extCs).length - 1
        then List.drop stemCs.length (stemCs ++ '.' :: extCs) else []) = '.' :: extCs
  rw [if_pos hcond]
  exact List.drop_left stemCs ('.' :: extCs)

theorem pathSuffix_stem_ext (stem ext : String) (hstem : stem ≠ "")
    (hs : '/' ∉ stem.data) (he : '/' ∉ ext.data) (hd : '.' ∉ ext.data)
    (hext : ext ≠ "") : pathSuffix (stem ++ "." ++ ext) = "." ++ ext := by
  have hsd : stem.data ≠ [] := fun hh => hstem (String.ext_iff.mpr hh)
  have hed : ext.data ≠ [] := fun hh => hext (String.ext_iff.mpr hh)
  have hdata : (stem ++ "." ++ ext).data = stem.data ++ '.' :: ext.data := by
    rw [String.data_append, String.data_append]
    simp
  have hslash : '/' ∉ stem.data ++ '.' :: ext.data := by
    intro hmem
    rcases List.mem_append.mp hmem with hmem | hmem
    · exact hs hmem
    · rcases List.mem_cons.mp hmem with hmem | hmem
      · exact absurd hmem (by decide)
      · exact he hmem
  have hne1 : stem.data ++ '.' :: ext.data ≠ [] := by simp
  have hne2 : stem.data ++ '.' :: ext.data ≠ ['.'] := by
    intro hh
    have hlen := congrArg List.length hh
    have hp1 : 0 < stem.data.length := List.length_pos.mpr hsd
    simp only [List.length_append, List.length_cons, List.length_nil] at hlen
    omega
  unfold pathSuffix
  rw [hdata, pathNameChars_no_slash _ hslash hne1 hne2,
    suffixOfChars_concat stem.data ext.data hsd hed hd]
  exact String.ext_iff.mpr (by rw [String.data_append]; rfl)

theorem pathSuffix_leading_dot (ext : String) (he : '/' ∉ ext.data)
    (hd : '.' ∉ ext.data) : pathSuffix ("." ++ ext) = "" := by
  by_cases hext : ext = ""
  · subst hext
    rfl
  · have hed : ext.data ≠ [] := fun hh => hext (String.ext_iff.mpr hh)
    have hdata : ("." ++ ext).data = '.' :: ext.data := by
      rw [String.data_append]
      rfl
    have hslash : '/' ∉ '.' :: ext.data := by
      intro hmem
      rcases List.mem_cons.mp hmem with hmem | hmem
      · exact absurd hmem (by decide)
      · exact he hmem
    have hne2 : ('.' :: ext.data) ≠ ['.'] := by
      intro hh
      exact hed (by simpa using hh)
    have hsuf : suffixOfChars ('.' :: ext.data) = [] := by
      unfold suffixOfChars
      rw [show lastIdxOf '.' ('.' :: ext.data) = some 0 by
        unfold lastIdxOf
        rw [lastIdxOf_not_mem '.' ext.data hd]
        simp]
      show (if 0 < 0 ∧ 0 < ('.' :: ext.data).length - 1
            then List.drop 0 ('.' :: ext.data) else []) = []
      simp
    unfold pathSuffix
    rw [hdata, pathNameChars_no_slash _ hslash (by simp) hne2, hsuf]

theorem pathSuffix_trailing_dot (stem : String) (hstem : stem ≠ "")
    (hs : '/' ∉ stem.data) : pathSuffix (stem ++ ".") = "" := by
  have hsd : stem.data ≠ [] := fun hh => hstem (String.ext_iff.mpr hh)
  have hdata : (stem ++ ".").data = stem.data ++ ['.'] := by
    rw [String.data_append]
  have hslash : '/' ∉ stem.data ++ ['.'] := by
    intro hmem
    rcases List.mem_append.mp hmem with hmem | hmem
    · exact hs hmem
    · exact absurd hmem (by decide)
  have hne2 : stem.data ++ ['.'] ≠ ['.'] := by
    intro hh
    have hlen := congrArg List.length hh
    have hp1 : 0 < stem.data.length := List.length_pos.mpr hsd
    simp only [List.length_append, List.length_cons, List.length_nil] at hlen
    omega
  have hsuf : suffixOfChars (stem.data ++ ['.']) = [] := by
    unfold suffixOfChars
    rw [show lastIdxOf '.' (stem.data ++ ['.']) = some stem.data.length by
      simpa using lastIdxOf_append_some stem.data ['.'] '.' 0 (by decide)]
    show (if 0 < stem.data.length ∧
            stem.data.length < (stem.data ++ ['.']).length - 1
          then List.drop stem.data.length (stem.data ++ ['.']) else []) = []
    rw [if_neg]
    intro hcond
    rcases hcond with ⟨_, hcond⟩
    simp only [List.length_append, List.length_cons, List.length_nil] at hcond
    omega
  unfold pathSuffix
  rw [hdata, pathNameChars_no_slash _ hslash (by simp [hsd]) hne2, hsuf]

theorem pathSuffix_no_dot_in_name (f : String) (h : '.' ∉ (pathName f).data) :
    pathSuffix f = "" := by
  unfold pathSuffix
  rw [show (pathName f).data = pathNameChars f.data from rfl] at h
  unfold suffixOfChars
  rw [lastIdxOf_not_mem '.' (pathNameChars f.data) h]

theorem stagedSuffix_eq (filename : Option String) (contents : List Nat)
    (convert : String → ConverterCall) (tmpName : String) (unlinkOk : Bool)
    (h : contents ≠ []) :
    (convert_file filename contents convert tmpName unlinkOk).stagedSuffix
      = some (pathSuffix (filename.getD "")) := by
  rcases hc : convert tmpName with converted | exc
  · rcases hm : _to_markdown_text converted with _ | markdown
    · rw [convert_file_ok_none filename contents convert tmpName unlinkOk converted h hc hm]
    · rw [convert_file_ok_some filename contents convert tmpName unlinkOk converted markdown h hc hm]
  · rw [convert_file_raised filename contents convert tmpName unlinkOk exc h hc]

/-- C6 counterexample: with declared filename ".bashrc" (which contains a
dot, whose substring from the last dot onward is ".bashrc" itself) the
staged file's suffix is the empty string, refuting "equals the substring
from the last '.' onward" and "empty exactly when there is no filename or
no dot". -/
theorem c6_suffix_counterexample :
    (convert_file (some ".bashrc") [1]
        (fun _ => ConverterCall.ok (PyVal.pyStr "x")) "tmpfile" true).stagedSuffix
      = some ""
      ∧ '.' ∈ ".bashrc".data := by
  exact ⟨by decide, by decide⟩

/-- C6 (amended): the staged file's suffix is computed from the final
path component of the declared filename: when the filename is
`stem ++ "." ++ ext` with `stem` non-empty, `ext` non-empty and dot-free
(so the component's last dot is neither its first nor its last character),
the suffix is `"." ++ ext`; it is the empty string when the name has no
dot, when the only dot is leading (".bashrc"), when the last dot is
trailing ("foo."), and when there is no filename. -/
theorem c6_suffix_characterization :
    (∀ (stem ext : String) (contents : List Nat)
        (convert : String → ConverterCall) (tmpName : String) (unlinkOk : Bool),
        contents ≠ [] → stem ≠ "" → '/' ∉ stem.data → '/' ∉ ext.data →
        '.' ∉ ext.data → ext ≠ "" →
        (convert_file (some (stem ++ "." ++ ext)) contents convert tmpName
            unlinkOk).stagedSuffix = some ("." ++ ext))
      ∧ (∀ f : String, '.' ∉ (pathName f).data → pathSuffix f = "")
      ∧ (∀ ext : String, '/' ∉ ext.data → '.' ∉ ext.data →
          pathSuffix ("." ++ ext) = "")
      ∧ (∀ stem : String, stem ≠ "" → '/' ∉ stem.data →
          pathSuffix (stem ++ ".") = "")
      ∧ (∀ (contents : List Nat) (convert : String → ConverterCall)
          (tmpName : String) (unlinkOk : Bool), contents ≠ [] →
          (convert_file Option.none contents convert tmpName
              unlinkOk).stagedSuffix = some "") := by
  refine ⟨?_, pathSuffix_no_dot_in_name, pathSuffix_leading_dot,
    pathSuffix_trailing_dot, ?_⟩
  · intro stem ext contents convert tmpName unlinkOk h hstem hs he hd hext
    rw [stagedSuffix_eq (some (stem ++ "." ++ ext)) contents convert tmpName unlinkOk h]
    rw [show (some (stem ++ "." ++ ext)).getD "" = stem ++ "." ++ ext from rfl]
    rw [pathSuffix_stem_ext stem ext hstem hs he hd hext]
  · intro contents convert tmpName unlinkOk h
    rw [stagedSuffix_eq Option.none contents convert tmpName unlinkOk h]
    rfl

/-- Witness for the amended C6 at the filename "report.docx". -/
theorem c6_suffix_characterization_witness :
    (convert_file (some ("report" ++ "." ++ "docx")) [1]
        (fun _ => ConverterCall.ok (PyVal.pyStr "x")) "tmpfile" true).stagedSuffix
      = some ("." ++ "docx") :=
  c6_suffix_characterization.1 "report" "docx" [1]
    (fun _ => ConverterCall.ok (PyVal.pyStr "x")) "tmpfile" true
    (by decide) (by decide) (by decide) (by decide) (by decide) (by decide)

end MarkitdownApi
